import Mathlib

/-!
Verification of the ccache HTTP storage helper (C++ sources) against its
natural-language specification.  Each definition below is a shallow
embedding of a function of the repository; the doc comment of every
definition names the source location it is translated from.  C++
`std::string` values are modelled as `List Char`, byte buffers as
`List Nat` (each element the value of one `uint8_t`).
-/

/-- C++ `std::string`, modelled as its character sequence. -/
abbrev Str := List Char

/-- One `uint8_t` value. -/
abbrev Byte := Nat

/-- `UrlLayout` from `src/config.hpp`. -/
inductive UrlLayout
  | BAZEL
  | FLAT
  | SUBDIRS
deriving DecidableEq, Repr

/-- `Config` from `src/config.hpp` (fields used by the claims). -/
structure Config where
  ipc_endpoint : Str := []
  url : Str := []
  idle_timeout_seconds : Nat := 0
  bearer_token : Option Str := none
  layout : UrlLayout := UrlLayout.SUBDIRS
  headers : List (Str × Str) := []
deriving DecidableEq, Repr

/-- `StorageResult` from the storage client header. -/
inductive StorageResult
  | OK
  | NOOP
  | ERROR
deriving DecidableEq, Repr

/-- `StorageResponse` from the storage client header. -/
structure StorageResponse where
  result : StorageResult
  error : Str
  data : List Byte
deriving DecidableEq, Repr

/-- `HttpOperation` from the storage client header. -/
inductive HttpOperation
  | GET
  | PUT
  | DELETE
  | HEAD
deriving DecidableEq, Repr

/-- Origin normalisation from `build_url`, `src/storage_client.cpp` lines
15-19: append one slash when the origin is empty or its last character is
not a slash; otherwise leave the origin unchanged. -/
def normalize_origin (url : Str) : Str :=
  if url = [] ∨ url.getLast? ≠ some '/' then url ++ ['/'] else url

/-- BAZEL branch of `build_url`, `src/storage_client.cpp` lines 25-36.
`substr(pos, n)` clamps `n` to the available characters, exactly as
`List.take` does. -/
def bazel_suffix (hex_key : Str) : Str :=
  if hex_key.length ≥ 64 then hex_key.take 64
  else hex_key ++ hex_key.take (64 - hex_key.length)

/-- The layout `switch` of `build_url`, `src/storage_client.cpp`
lines 24-49. -/
def layout_suffix (layout : UrlLayout) (hex_key : Str) : Str :=
  match layout with
  | UrlLayout.BAZEL => ("ac/").toList ++ bazel_suffix hex_key
  | UrlLayout.FLAT => hex_key
  | UrlLayout.SUBDIRS =>
    if hex_key.length ≥ 2 then hex_key.take 2 ++ ['/'] ++ hex_key.drop 2
    else hex_key

/-- `build_url` from `src/storage_client.cpp` lines 13-52. -/
def build_url (config : Config) (hex_key : Str) : Str :=
  normalize_origin config.url ++ layout_suffix config.layout hex_key

/-- `parse_layout` from `src/config.cpp` lines 22-31. -/
def parse_layout (s : Str) : UrlLayout :=
  if s = ("bazel").toList then UrlLayout.BAZEL
  else if s = ("flat").toList then UrlLayout.FLAT
  else UrlLayout.SUBDIRS

/-- `value_str.find('=')` split from `src/config.cpp` lines 100-105:
returns the parts before and after the first `=`, or `none` when the
character does not occur. -/
def split_first_eq : Str → Option (Str × Str)
  | [] => none
  | c :: rest =>
    if c = '=' then some ([], rest)
    else
      match split_first_eq rest with
      | some (n, v) => some (c :: n, v)
      | none => none

/-- Effect of one attribute pair on the configuration, from the body of
the attribute loop in `parse_config`, `src/config.cpp` lines 95-106. -/
def apply_attr (c : Config) (key value : Str) : Config :=
  if key = ("bearer-token").toList then { c with bearer_token := some value }
  else if key = ("layout").toList then { c with layout := parse_layout value }
  else if key = ("header").toList then
    match split_first_eq value with
    | some (n, v) => { c with headers := c.headers ++ [(n, v)] }
    | none => c
  else c

/-- The attribute loop of `parse_config`, `src/config.cpp` lines 77-107.
Each list element is the pair of environment lookups
`(CRSH_ATTR_KEY_i, CRSH_ATTR_VALUE_i)`; a missing variable aborts
parsing with `none`, exactly as the early returns do. -/
def parse_attrs : Config → List (Option Str × Option Str) → Option Config
  | c, [] => some c
  | _, (none, _) :: _ => none
  | _, (some _, none) :: _ => none
  | c, (some k, some v) :: rest => parse_attrs (apply_attr c k v) rest

/-- Renders `"HTTP " + std::to_string(http_code)`,
`src/storage_client.cpp` lines 302, 317, 329, 341. -/
def http_error_text (code : Nat) : Str :=
  ("HTTP ").toList ++ (Nat.repr code).toList

/-- HTTP status classification from `StorageClient::check_multi_info`,
`src/storage_client.cpp` lines 292-346 (the branch taken when the
transfer finished without a transport error, i.e. `result == CURLE_OK`).
Returns the result, the error text and the response body that are passed
to the continuation. -/
def classify_status (op : HttpOperation) (http_code : Nat) (body : List Byte) :
    StorageResult × Str × List Byte :=
  match op with
  | HttpOperation.GET =>
    if http_code = 200 then (StorageResult.OK, [], body)
    else if http_code = 404 then (StorageResult.NOOP, [], [])
    else (StorageResult.ERROR, http_error_text http_code, body)
  | HttpOperation.HEAD =>
    if http_code = 200 then (StorageResult.OK, [], body)
    else if http_code = 404 then (StorageResult.NOOP, [], body)
    else (StorageResult.ERROR, http_error_text http_code, body)
  | HttpOperation.PUT =>
    if 200 ≤ http_code ∧ http_code < 300 then (StorageResult.OK, [], body)
    else if http_code = 412 ∨ http_code = 409 then (StorageResult.NOOP, [], body)
    else (StorageResult.ERROR, http_error_text http_code, body)
  | HttpOperation.DELETE =>
    if 200 ≤ http_code ∧ http_code < 300 then (StorageResult.OK, [], body)
    else if http_code = 404 then (StorageResult.NOOP, [], body)
    else (StorageResult.ERROR, http_error_text http_code, body)

/-- What the continuation installed by `StorageClient::put` for the HEAD
probe does next, `src/storage_client.cpp` lines 147-158: on NOOP it
proceeds with `do_put`, on OK it answers NOOP immediately, on anything
else it answers with the HEAD response itself. -/
inductive HeadNext
  | proceed
  | answer (r : StorageResponse)
deriving DecidableEq, Repr

/-- The HEAD continuation body, `src/storage_client.cpp` lines 147-158. -/
def put_head_continuation (resp : StorageResponse) : HeadNext :=
  match resp.result with
  | StorageResult.NOOP => HeadNext.proceed
  | StorageResult.OK => HeadNext.answer (StorageResponse.mk StorageResult.NOOP [] [])
  | StorageResult.ERROR => HeadNext.answer resp

/-- Observable trace semantics of `StorageClient::put` composed with
`StorageClient::do_put`, `src/storage_client.cpp` lines 125-189:
`head_resp` is the response the HEAD probe would resolve to and
`put_resp` the response the PUT transfer would resolve to (both as
produced by `check_multi_info`).  The value is the ordered list of HTTP
requests issued and the response handed to the caller's continuation. -/
def put_op (overwrite : Bool) (head_resp put_resp : StorageResponse) :
    List HttpOperation × StorageResponse :=
  if overwrite then ([HttpOperation.PUT], put_resp)
  else
    match put_head_continuation head_resp with
    | HeadNext.proceed => ([HttpOperation.HEAD, HttpOperation.PUT], put_resp)
    | HeadNext.answer r => ([HttpOperation.HEAD], r)

/-- What a scheduling call (`get`, `put`, `do_put`, `remove`) does before
returning: either it invokes the continuation synchronously (the
handle-creation failure path) or it registers an HTTP request of the
given kind in `_active_requests` and enqueues it on the multi-handle,
leaving the continuation for later. -/
inductive SchedOutcome
  | syncCallback (r : StorageResponse)
  | registered (op : HttpOperation)
deriving DecidableEq, Repr

/-- The error response built on the handle-creation failure paths,
`src/storage_client.cpp` lines 116, 143, 179, 202. -/
def handle_failure_response : StorageResponse :=
  StorageResponse.mk StorageResult.ERROR (("Failed to create curl handle").toList) []

/-- `StorageClient::get`, `src/storage_client.cpp` lines 105-123, as a
function of whether `curl_easy_init` succeeds. -/
def get_schedule (handle_created : Bool) : SchedOutcome :=
  if handle_created then SchedOutcome.registered HttpOperation.GET
  else SchedOutcome.syncCallback handle_failure_response

/-- `StorageClient::do_put`, `src/storage_client.cpp` lines 166-189. -/
def do_put_schedule (handle_created : Bool) : SchedOutcome :=
  if handle_created then SchedOutcome.registered HttpOperation.PUT
  else SchedOutcome.syncCallback handle_failure_response

/-- `StorageClient::put`, `src/storage_client.cpp` lines 125-164: with
`overwrite` it behaves as `do_put`, otherwise it schedules a HEAD. -/
def put_schedule (handle_created overwrite : Bool) : SchedOutcome :=
  if overwrite then do_put_schedule handle_created
  else if handle_created then SchedOutcome.registered HttpOperation.HEAD
  else SchedOutcome.syncCallback handle_failure_response

/-- `StorageClient::remove`, `src/storage_client.cpp` lines 191-209. -/
def remove_schedule (handle_created : Bool) : SchedOutcome :=
  if handle_created then SchedOutcome.registered HttpOperation.DELETE
  else SchedOutcome.syncCallback handle_failure_response

/-- Completion handling for one finished easy handle in
`StorageClient::check_multi_info`, `src/storage_client.cpp` lines
350-360: the registry `_active_requests` is modelled by its list of
handle identities.  When the handle is present it is removed and its
continuation is invoked once; otherwise nothing happens.  The second
component counts continuation invocations. -/
def check_multi_done (reg : List Nat) (h : Nat) : List Nat × Nat :=
  if h ∈ reg then (reg.erase h, 1) else (reg, 0)

/-- One lower-case hexadecimal digit, as produced by
`std::hex` with `std::setfill` in `format_hex`. -/
def hex_digit (n : Nat) : Char :=
  if n < 10 then Char.ofNat (('0').toNat + n)
  else Char.ofNat (('a').toNat + (n - 10))

/-- Two-digit rendering of one byte inside `format_hex`
(`setw(2)` with fill `0`), unnamed part 002 lines 36-44. -/
def byte_to_hex (b : Byte) : Str :=
  [hex_digit ((b / 16) % 16), hex_digit (b % 16)]

/-- `format_hex` from unnamed part 002 lines 36-44. -/
def format_hex (bs : List Byte) : Str :=
  (bs.map byte_to_hex).flatten

/-- `read_u64_host_byte_order` from unnamed part 002 lines 46-51,
on a little-endian host (the first byte is least significant). -/
def read_u64_host_byte_order : List Byte → Nat
  | [] => 0
  | b :: rest => b + 256 * read_u64_host_byte_order rest

/-- A decoded IPC request, as handed to the storage client by
`IpcServer::process_client_data`. -/
inductive Request
  | get (hex_key : Str)
  | put (hex_key : Str) (overwrite : Bool) (value : List Byte)
  | remove (hex_key : Str)
deriving DecidableEq, Repr

/-- Externally visible actions of `IpcServer::process_client_data`.
`crash` marks the undefined behaviour reached when the wrapped PUT
length check is evaded (see `decode_one`): the program constructs a
value vector from an out-of-bounds iterator range and does not continue
normally. -/
inductive ServerEvent
  | enqueueResponse (blob : List Byte)
  | schedule (r : Request)
  | stopServer
  | crash
deriving DecidableEq, Repr

/-- Result of examining the front of the read accumulator, following one
iteration of the `while` loop of `IpcServer::process_client_data`
(unnamed part 002 lines 203-290).  `oobRead` is the case in which the
wrapping PUT length check passes even though the declared value bytes
are not in the buffer: the program then reads out of bounds (undefined
behaviour). -/
inductive DecodeResult
  | empty
  | stopReq
  | badType
  | incomplete
  | oobRead
  | request (r : Request) (consumed : Nat)
deriving DecidableEq, Repr

/-- One iteration of the loop body of `IpcServer::process_client_data`,
unnamed part 002 lines 207-288, up to (but not including) the
`buf.erase` that removes `offset` bytes: the returned `consumed` is that
`offset`.  Request types: 0x00 GET, 0x01 PUT, 0x02 REMOVE, 0x03 STOP.
The PUT value check at line 265 is `len < offset + value_len` computed
in wrapping 64-bit unsigned arithmetic (`offset` is `size_t`,
`value_len` is `uint64_t`), with `offset = 11 + key_len` and
`len = offset + rest4.length` at that point; it is modelled with an
explicit `% 2 ^ 64`.  When the sum wraps, the check is evaded although
the declared bytes are absent, and the program constructs the value
vector from an out-of-bounds iterator range: that is the `oobRead`
result.  The remaining length checks cannot wrap, as their summands are
bounded by 266. -/
def decode_one (buf : List Byte) : DecodeResult :=
  match buf with
  | [] => DecodeResult.empty
  | t :: rest =>
    if t = 3 then DecodeResult.stopReq
    else if t ≠ 0 ∧ t ≠ 1 ∧ t ≠ 2 then DecodeResult.badType
    else
      match rest with
      | [] => DecodeResult.incomplete
      | key_len :: rest2 =>
        if rest2.length < key_len then DecodeResult.incomplete
        else
          let hex_key := format_hex (rest2.take key_len)
          let after_key := rest2.drop key_len
          if t = 0 then DecodeResult.request (Request.get hex_key) (2 + key_len)
          else if t = 2 then DecodeResult.request (Request.remove hex_key) (2 + key_len)
          else
            match after_key with
            | [] => DecodeResult.incomplete
            | flags :: rest3 =>
              if rest3.length < 8 then DecodeResult.incomplete
              else
                let value_len := read_u64_host_byte_order (rest3.take 8)
                let rest4 := rest3.drop 8
                if 11 + key_len + rest4.length < (11 + key_len + value_len) % (2 ^ 64)
                then DecodeResult.incomplete
                else if rest4.length < value_len then DecodeResult.oobRead
                else
                  DecodeResult.request
                    (Request.put hex_key (Nat.land flags 1 != 0) (rest4.take value_len))
                    (2 + key_len + 1 + 8 + value_len)

/-- `IpcServer::process_client_data`, unnamed part 002 lines 203-290:
consumes complete records from the front of the accumulator one at a
time, returning the emitted actions and the bytes left in the
accumulator.  A STOP record enqueues the single success byte 0x00 and
initiates shutdown; an unknown request type initiates shutdown without
responding; an incomplete record is left untouched.  The `oobRead` case
is the out-of-bounds read of the wrapped PUT length check: the program's
behaviour there is undefined (in practice it dies constructing the value
vector), which the model records as a single `crash` action — neither
component of the returned pair is meaningful program behaviour then. -/
def process_client_data (buf : List Byte) : List ServerEvent × List Byte :=
  match hdec : decode_one buf with
  | DecodeResult.empty => ([], buf)
  | DecodeResult.stopReq =>
    ([ServerEvent.enqueueResponse [0], ServerEvent.stopServer], buf.drop 1)
  | DecodeResult.badType => ([ServerEvent.stopServer], buf)
  | DecodeResult.incomplete => ([], buf)
  | DecodeResult.oobRead => ([ServerEvent.crash], buf)
  | DecodeResult.request r n =>
    let rest := process_client_data (buf.drop n)
    (ServerEvent.schedule r :: rest.1, rest.2)
termination_by buf.length
decreasing_by
  have hpos : 0 < n ∧ buf ≠ [] := by
    cases buf with
    | nil => simp [decode_one] at hdec
    | cons t rest =>
      refine ⟨?_, by simp⟩
      simp only [decode_one] at hdec
      split at hdec
      · exact absurd hdec (by simp)
      · split at hdec
        · exact absurd hdec (by simp)
        · cases rest with
          | nil => simp at hdec
          | cons key_len rest2 =>
            simp only at hdec
            split at hdec
            · exact absurd hdec (by simp)
            · split at hdec
              · rw [DecodeResult.request.injEq] at hdec
                omega
              · split at hdec
                · rw [DecodeResult.request.injEq] at hdec
                  omega
                · cases hak : rest2.drop key_len with
                  | nil => rw [hak] at hdec; simp at hdec
                  | cons flags rest3 =>
                    rw [hak] at hdec
                    simp only at hdec
                    split at hdec
                    · exact absurd hdec (by simp)
                    · split at hdec
                      · exact absurd hdec (by simp)
                      · split at hdec
                        · exact absurd hdec (by simp)
                        · rw [DecodeResult.request.injEq] at hdec
                          omega
  have hlen : buf.length ≠ 0 := by
    intro hz
    exact hpos.2 (List.length_eq_zero.mp hz)
  simp only [List.length_drop]
  omega

/-- Size in bytes of the wire record that produced a decoded request:
the type byte plus all declared fields.  The key length field value is
recovered from the hex key, which has two characters per key byte. -/
def record_size : Request → Nat
  | Request.get k => 2 + k.length / 2
  | Request.remove k => 2 + k.length / 2
  | Request.put k _ v => 2 + k.length / 2 + 1 + 8 + v.length

/-- A blob queued for transmission on an IPC connection. -/
abbrev Blob := List Byte

/-- The write-side state of one `ClientConnection` (fields
`write_queue` and `writing` of the struct in the server header), plus
two observation fields: `outstanding` counts asynchronous writes that
have been started but not yet completed, and `sent` records the blobs in
the order their `uv_write` was issued. -/
structure ConnWriteState where
  write_queue : List Blob
  writing : Bool
  outstanding : Nat
  sent : List Blob
deriving DecidableEq, Repr

/-- State of a freshly accepted connection. -/
def ConnWriteState.init : ConnWriteState :=
  ConnWriteState.mk [] false 0 []

/-- `IpcServer::flush_write_queue`, unnamed part 002 lines 315-341
(`uv_write` assumed to succeed): when no write is in flight and the
queue is nonempty, mark writing, pop the front blob and start its
asynchronous write. -/
def flush_write_queue (s : ConnWriteState) : ConnWriteState :=
  if s.writing then s
  else
    match s.write_queue with
    | [] => s
    | b :: rest =>
      ConnWriteState.mk rest true (s.outstanding + 1) (s.sent ++ [b])

/-- `IpcServer::on_write_complete`, unnamed part 002 lines 343-353:
clear the writing flag and re-enter the drainer.  The callback only ever
fires for a started write, so a completion with nothing outstanding is a
no-op. -/
def on_write_complete (s : ConnWriteState) : ConnWriteState :=
  if s.outstanding = 0 then s
  else flush_write_queue
    (ConnWriteState.mk s.write_queue false (s.outstanding - 1) s.sent)

/-- `IpcServer::send_response` (server header, template member): append
the blob to the write queue, then drain. -/
def send_response (s : ConnWriteState) (b : Blob) : ConnWriteState :=
  flush_write_queue
    (ConnWriteState.mk (s.write_queue ++ [b]) s.writing s.outstanding s.sent)

/-- Events the event loop can deliver to one connection's write side, in
any order: a response enqueued by the server, or the completion callback
of the write in flight. -/
inductive WriteEvent
  | send (b : Blob)
  | complete
deriving DecidableEq, Repr

/-- One loop-thread step. -/
def write_step (s : ConnWriteState) : WriteEvent → ConnWriteState
  | WriteEvent.send b => send_response s b
  | WriteEvent.complete => on_write_complete s

/-- A whole schedule of events, run in order. -/
def write_run (s : ConnWriteState) (evts : List WriteEvent) : ConnWriteState :=
  evts.foldl write_step s

/-- The blobs enqueued by a schedule, in order. -/
def enqueued_blobs (evts : List WriteEvent) : List Blob :=
  evts.filterMap fun e =>
    match e with
    | WriteEvent.send b => some b
    | WriteEvent.complete => none

/-- The claim of C8 reads the origin normalisation as: strip every
trailing slash, then append exactly one.  This definition follows the
claim's words (not the source) and is only compared against the source
function `normalize_origin`. -/
def spec_normalize_origin (url : Str) : Str :=
  (url.reverse.dropWhile (fun c => c = '/')).reverse ++ ['/']

/-- The write-flag/outstanding-write invariant of one connection:
`writing` is true exactly while one asynchronous write is outstanding. -/
def write_inv (s : ConnWriteState) : Prop :=
  s.outstanding = if s.writing then 1 else 0

/-!  Theorems.  Helper lemmas come first, then one theorem per claim
(with its witness or counterexample where applicable).  -/

/-- Unfolding lemma: a complete GET/PUT/REMOVE record is consumed and the
loop continues on the rest of the accumulator. -/
theorem process_client_data_eq_request (buf : List Byte) (r : Request) (n : Nat)
    (h : decode_one buf = DecodeResult.request r n) :
    process_client_data buf =
      (ServerEvent.schedule r :: (process_client_data (buf.drop n)).1,
       (process_client_data (buf.drop n)).2) := by
  rw [process_client_data]
  split <;> simp_all

/-- Unfolding lemma: a STOP record consumes its type byte, answers with
the success byte and initiates shutdown. -/
theorem process_client_data_eq_stop (buf : List Byte)
    (h : decode_one buf = DecodeResult.stopReq) :
    process_client_data buf =
      ([ServerEvent.enqueueResponse [0], ServerEvent.stopServer], buf.drop 1) := by
  rw [process_client_data]
  split <;> simp_all

/-- Unfolding lemma: an unknown request type initiates shutdown without
any response and without consuming bytes. -/
theorem process_client_data_eq_bad (buf : List Byte)
    (h : decode_one buf = DecodeResult.badType) :
    process_client_data buf = ([ServerEvent.stopServer], buf) := by
  rw [process_client_data]
  split <;> simp_all

/-- Unfolding lemma: an incomplete record is retained unchanged. -/
theorem process_client_data_eq_incomplete (buf : List Byte)
    (h : decode_one buf = DecodeResult.incomplete) :
    process_client_data buf = ([], buf) := by
  rw [process_client_data]
  split <;> simp_all

/-- Unfolding lemma: a PUT frame that evades the wrapped length check
makes the program read out of bounds (undefined behaviour, recorded as
a crash action). -/
theorem process_client_data_eq_oob (buf : List Byte)
    (h : decode_one buf = DecodeResult.oobRead) :
    process_client_data buf = ([ServerEvent.crash], buf) := by
  rw [process_client_data]
  split <;> simp_all

/-- Unfolding lemma: an empty accumulator yields nothing. -/
theorem process_client_data_eq_empty (buf : List Byte)
    (h : decode_one buf = DecodeResult.empty) :
    process_client_data buf = ([], buf) := by
  rw [process_client_data]
  split <;> simp_all

/-- `format_hex` produces two characters per key byte. -/
theorem format_hex_length (bs : List Byte) : (format_hex bs).length = 2 * bs.length := by
  induction bs with
  | nil => rfl
  | cons b rest ih =>
    have hcons : format_hex (b :: rest) = byte_to_hex b ++ format_hex rest := by
      simp [format_hex]
    rw [hcons, List.length_append, ih, byte_to_hex]
    simp
    omega

/-- Draining the queue does not change the sequence
(started writes, then queued blobs). -/
theorem flush_write_queue_track (s : ConnWriteState) :
    (flush_write_queue s).sent ++ (flush_write_queue s).write_queue =
      s.sent ++ s.write_queue := by
  unfold flush_write_queue
  split
  · rfl
  · split <;> simp_all

/-- Draining the queue preserves the write-flag invariant. -/
theorem flush_write_queue_inv (s : ConnWriteState) (hs : write_inv s) :
    write_inv (flush_write_queue s) := by
  unfold flush_write_queue write_inv at *
  split
  · simp_all
  · split <;> simp_all

/-- One event preserves the invariant and extends the tracked sequence
by exactly the enqueued blob (if any). -/
theorem write_step_track (s : ConnWriteState) (e : WriteEvent) (hs : write_inv s) :
    write_inv (write_step s e) ∧
      (write_step s e).sent ++ (write_step s e).write_queue =
        s.sent ++ s.write_queue ++ enqueued_blobs [e] := by
  cases e with
  | send b =>
    constructor
    · exact flush_write_queue_inv _ hs
    · rw [write_step, send_response, flush_write_queue_track]
      simp [enqueued_blobs]
  | complete =>
    rw [write_step, on_write_complete]
    split
    · exact ⟨hs, by simp [enqueued_blobs]⟩
    · constructor
      · apply flush_write_queue_inv
        unfold write_inv at *
        split at hs <;> simp_all
      · rw [flush_write_queue_track]
        simp [enqueued_blobs]

/-- Running any schedule preserves the invariant, and the started writes
followed by the still-queued blobs are exactly the previously tracked
sequence extended by the enqueued blobs, in order. -/
theorem write_run_track (evts : List WriteEvent) (s : ConnWriteState) (hs : write_inv s) :
    write_inv (write_run s evts) ∧
      (write_run s evts).sent ++ (write_run s evts).write_queue =
        s.sent ++ s.write_queue ++ enqueued_blobs evts := by
  induction evts generalizing s with
  | nil => exact ⟨hs, by simp [write_run, enqueued_blobs]⟩
  | cons e rest ih =>
    have hstep := write_step_track s e hs
    have hrest := ih (write_step s e) hstep.1
    refine ⟨hrest.1, ?_⟩
    have hrun : write_run s (e :: rest) = write_run (write_step s e) rest := rfl
    rw [hrun, hrest.2, hstep.2]
    cases e <;> simp [enqueued_blobs]

/-- A decoded GET/PUT/REMOVE record consumes exactly its record size:
the type byte plus all declared fields. -/
theorem decode_one_request_size (buf : List Byte) (r : Request) (n : Nat)
    (h : decode_one buf = DecodeResult.request r n) : n = record_size r := by
  cases buf with
  | nil => simp [decode_one] at h
  | cons t rest =>
    simp only [decode_one] at h
    split at h
    · exact absurd h (by simp)
    · split at h
      · exact absurd h (by simp)
      · cases rest with
        | nil => simp at h
        | cons key_len rest2 =>
          simp only at h
          split at h
          · exact absurd h (by simp)
          · split at h
            · rw [DecodeResult.request.injEq] at h
              obtain ⟨hr, hn⟩ := h
              subst hr
              subst hn
              simp only [record_size, format_hex_length, List.length_take] at *
              omega
            · split at h
              · rw [DecodeResult.request.injEq] at h
                obtain ⟨hr, hn⟩ := h
                subst hr
                subst hn
                simp only [record_size, format_hex_length, List.length_take] at *
                omega
              · cases hak : rest2.drop key_len with
                | nil => rw [hak] at h; simp at h
                | cons flags rest3 =>
                  rw [hak] at h
                  simp only at h
                  split at h
                  · exact absurd h (by simp)
                  · split at h
                    · exact absurd h (by simp)
                    · split at h
                      · exact absurd h (by simp)
                      · rw [DecodeResult.request.injEq] at h
                        obtain ⟨hr, hn⟩ := h
                        subst hr
                        subst hn
                        simp only [record_size, format_hex_length, List.length_take,
                          List.length_drop] at *
                        omega

/-- Frame accounting on the paths where the length checks behave as
intended: a decoded record removes exactly the full record size (type
byte plus declared fields; for STOP just the type byte), and a record
the decoder reports incomplete is retained unchanged. -/
theorem valid_frame_consumption (buf : List Byte) :
    (∀ r n, decode_one buf = DecodeResult.request r n →
        n = record_size r ∧
        process_client_data buf =
          (ServerEvent.schedule r ::
            (process_client_data (buf.drop (record_size r))).1,
           (process_client_data (buf.drop (record_size r))).2))
    ∧ (decode_one buf = DecodeResult.stopReq →
        process_client_data buf =
          ([ServerEvent.enqueueResponse [0], ServerEvent.stopServer], buf.drop 1))
    ∧ (decode_one buf = DecodeResult.incomplete →
        process_client_data buf = ([], buf)) := by
  refine ⟨fun r n h => ?_, process_client_data_eq_stop buf,
    process_client_data_eq_incomplete buf⟩
  have hsize := decode_one_request_size buf r n h
  exact ⟨hsize, by rw [process_client_data_eq_request buf r n h, ← hsize]⟩

/-- C5: the claim that a record whose bytes have not fully arrived
consumes nothing and is retained unchanged fails on the code at the
11-byte PUT frame declaring a value length of 2^64 - 1: the `size_t`
check `len < offset + value_len` wraps (11 + (2^64 - 1) is 10 modulo
2^64, and 11 < 10 is false), so instead of retaining the incomplete
frame the program constructs the value vector from an out-of-bounds
iterator range — undefined behaviour, contradicting the code's own
"incomplete message" handling and the spec's no-partial-consumption
rule. -/
theorem C5_put_length_overflow :
    read_u64_host_byte_order [255, 255, 255, 255, 255, 255, 255, 255] = 2 ^ 64 - 1
    ∧ (11 + 0 + (2 ^ 64 - 1)) % 2 ^ 64 = 10
    ∧ decode_one [1, 0, 0, 255, 255, 255, 255, 255, 255, 255, 255]
        = DecodeResult.oobRead
    ∧ decode_one [1, 0, 0, 255, 255, 255, 255, 255, 255, 255, 255]
        ≠ DecodeResult.incomplete
    ∧ process_client_data [1, 0, 0, 255, 255, 255, 255, 255, 255, 255, 255]
        = ([ServerEvent.crash], [1, 0, 0, 255, 255, 255, 255, 255, 255, 255, 255]) := by
  refine ⟨by decide, by decide, by decide, by decide, ?_⟩
  exact process_client_data_eq_oob _ (by decide)

/-- C1: a PUT operation with `overwrite = false` first issues a HEAD for
the key's URL; a HEAD resolving OK makes the operation resolve NOOP with
no PUT issued, a HEAD resolving NOOP leads to a PUT whose outcome is the
operation's outcome, and a HEAD resolving ERROR is surfaced unchanged.
With `overwrite = true` a PUT is issued directly and no HEAD. -/
theorem C1_put_head_probe (head_err : Str) (head_data : List Byte)
    (head_resp put_resp : StorageResponse) :
    put_op true head_resp put_resp = ([HttpOperation.PUT], put_resp)
    ∧ put_op false (StorageResponse.mk StorageResult.OK head_err head_data) put_resp
        = ([HttpOperation.HEAD], StorageResponse.mk StorageResult.NOOP [] [])
    ∧ put_op false (StorageResponse.mk StorageResult.NOOP head_err head_data) put_resp
        = ([HttpOperation.HEAD, HttpOperation.PUT], put_resp)
    ∧ put_op false (StorageResponse.mk StorageResult.ERROR head_err head_data) put_resp
        = ([HttpOperation.HEAD],
           StorageResponse.mk StorageResult.ERROR head_err head_data) :=
  ⟨rfl, rfl, rfl, rfl⟩

/-- C2 is false as stated: a GET completing with HTTP status 204 (a 2xx
status) resolves ERROR in the code, not OK — `check_multi_info` compares
the status of a GET against 200 exactly, not against the 2xx range. -/
theorem C2_counterexample :
    classify_status HttpOperation.GET 204 []
      = (StorageResult.ERROR, http_error_text 204, [])
    ∧ (classify_status HttpOperation.GET 204 []).1 ≠ StorageResult.OK := by
  constructor
  · simp [classify_status]
  · simp [classify_status]

/-- C2 (amended): for a GET completing without a transport error, status
200 resolves OK with the body captured, status 404 resolves NOOP with an
empty body, and every other status — including the rest of the 2xx
range — resolves ERROR with message `HTTP <code>`. -/
theorem C2_get_classification (code : Nat) (body : List Byte) :
    (code = 200 →
      classify_status HttpOperation.GET code body = (StorageResult.OK, [], body))
    ∧ (code = 404 →
      classify_status HttpOperation.GET code body = (StorageResult.NOOP, [], []))
    ∧ (code ≠ 200 → code ≠ 404 →
      classify_status HttpOperation.GET code body
        = (StorageResult.ERROR, http_error_text code, body)) := by
  refine ⟨fun h => ?_, fun h => ?_, fun h1 h2 => ?_⟩ <;> simp [classify_status, *]

/-- Witness for C2 (amended) at statuses 200, 404 and 204. -/
theorem C2_get_classification_witness :
    classify_status HttpOperation.GET 200 [7] = (StorageResult.OK, [], [7])
    ∧ classify_status HttpOperation.GET 404 [7] = (StorageResult.NOOP, [], [])
    ∧ classify_status HttpOperation.GET 204 []
        = (StorageResult.ERROR, http_error_text 204, []) :=
  ⟨(C2_get_classification 200 [7]).1 rfl,
   (C2_get_classification 404 [7]).2.1 rfl,
   (C2_get_classification 204 []).2.2 (by decide) (by decide)⟩

/-- C3: the claim (and the comment in `build_url`) want the BAZEL suffix
after `ac/` to be exactly 64 characters for every key, but `substr`
clamps, so a 10-character key is padded with only its 10 characters:
the code produces a 20-character suffix. -/
theorem C3_bazel_pad_short_key :
    bazel_suffix (("0123456789").toList) = ("01234567890123456789").toList
    ∧ (bazel_suffix (("0123456789").toList)).length = 20
    ∧ (bazel_suffix (("0123456789").toList)).length ≠ 64 := by
  refine ⟨by decide, by decide, by decide⟩

/-- C4 is false as stated: when `curl_easy_init` fails,
`StorageClient::get` (and likewise `put` and `remove`) invokes the
continuation synchronously, from within the scheduling call, with an
ERROR response — contrary to the claim that the continuation is never
invoked from within the call even on handle-creation failure. -/
theorem C4_counterexample :
    get_schedule false = SchedOutcome.syncCallback handle_failure_response
    ∧ put_schedule false false = SchedOutcome.syncCallback handle_failure_response
    ∧ put_schedule false true = SchedOutcome.syncCallback handle_failure_response
    ∧ remove_schedule false = SchedOutcome.syncCallback handle_failure_response :=
  ⟨rfl, rfl, rfl, rfl⟩

/-- C4 (amended): when the HTTP handle is created successfully, the
scheduling call does not invoke the continuation; it registers exactly
one request, and the continuation is invoked exactly once, later, by
`check_multi_info` when the completed handle is found in the registry,
which also removes the handle so that a repeated completion cannot
invoke it again.  When handle creation fails, the continuation is
invoked exactly once, synchronously, with an ERROR response. -/
theorem C4_continuation_discipline (reg : List Nat) (h : Nat) :
    get_schedule true = SchedOutcome.registered HttpOperation.GET
    ∧ put_schedule true false = SchedOutcome.registered HttpOperation.HEAD
    ∧ put_schedule true true = SchedOutcome.registered HttpOperation.PUT
    ∧ remove_schedule true = SchedOutcome.registered HttpOperation.DELETE
    ∧ get_schedule false = SchedOutcome.syncCallback handle_failure_response
    ∧ (check_multi_done reg h).2 = (if h ∈ reg then 1 else 0)
    ∧ (reg.Nodup → h ∉ (check_multi_done reg h).1) := by
  refine ⟨rfl, rfl, rfl, rfl, rfl, ?_, ?_⟩
  · unfold check_multi_done
    split <;> simp_all
  · intro hnd
    unfold check_multi_done
    split
    · intro hmem
      exact absurd rfl ((List.Nodup.mem_erase_iff hnd).mp hmem).1
    · simp_all

/-- Witness for C4 (amended): completing handle 5 with registry `[5]`
invokes the continuation once and leaves the handle unregistered. -/
theorem C4_continuation_discipline_witness :
    (check_multi_done [5] 5).2 = (if 5 ∈ [5] then 1 else 0)
    ∧ 5 ∉ (check_multi_done [5] 5).1 :=
  ⟨(C4_continuation_discipline [5] 5).2.2.2.2.2.1,
   (C4_continuation_discipline [5] 5).2.2.2.2.2.2 (by decide)⟩

/-- C6: on one IPC connection blobs are transmitted in the order they
were enqueued with at most one write in flight, under every order of
enqueue and write-completion events: after any schedule, the started
writes followed by the still-queued blobs are exactly the enqueued blobs
in order (so the transmitted sequence is a prefix of the enqueue
sequence — in particular a GET header blob, enqueued immediately before
its body blob, is always transmitted before it), and the writing flag is
set exactly while one write is outstanding. -/
theorem C6_write_queue_fifo (evts : List WriteEvent) :
    (write_run ConnWriteState.init evts).sent ++
        (write_run ConnWriteState.init evts).write_queue = enqueued_blobs evts
    ∧ (write_run ConnWriteState.init evts).outstanding
        = (if (write_run ConnWriteState.init evts).writing then 1 else 0)
    ∧ (write_run ConnWriteState.init evts).outstanding ≤ 1 := by
  have h := write_run_track evts ConnWriteState.init (by rfl)
  refine ⟨?_, h.1, ?_⟩
  · rw [h.2]
    rfl
  · rw [h.1]
    split <;> omega

/-- C7: a record whose first byte is not one of the four request types
makes the server initiate shutdown and write no response for it: the
emitted actions are exactly one shutdown, with no response enqueued and
no storage operation scheduled. -/
theorem C7_unknown_type_shutdown (t : Byte) (rest : List Byte)
    (h0 : t ≠ 0) (h1 : t ≠ 1) (h2 : t ≠ 2) (h3 : t ≠ 3) :
    process_client_data (t :: rest) = ([ServerEvent.stopServer], t :: rest) := by
  apply process_client_data_eq_bad
  simp [decode_one, h0, h1, h2, h3]

/-- Witness for C7 at the unknown request type 9. -/
theorem C7_unknown_type_shutdown_witness :
    process_client_data [9, 1, 2] = ([ServerEvent.stopServer], [9, 1, 2]) :=
  C7_unknown_type_shutdown 9 [1, 2] (by decide) (by decide) (by decide) (by decide)

/-- C9 is false as stated: the bytes after a STOP byte are not
discarded.  With accumulator `[0x03, 0x00, 0x01, 0xAB]` (a STOP followed
by a complete pipelined GET), processing the STOP leaves the three GET
bytes in the accumulator — and a later invocation of
`process_client_data` (a further read callback delivered before the
loop stops) decodes that retained record and schedules the GET, so the
pipelined request is not never-processed either. -/
theorem C9_counterexample :
    process_client_data [3, 0, 1, 171]
      = ([ServerEvent.enqueueResponse [0], ServerEvent.stopServer], [0, 1, 171])
    ∧ ([0, 1, 171] : List Byte) ≠ []
    ∧ process_client_data [0, 1, 171]
      = ([ServerEvent.schedule (Request.get (("ab").toList))], []) := by
  refine ⟨?_, by decide, ?_⟩
  · rw [process_client_data_eq_stop _ (by decide)]
    rfl
  · rw [process_client_data_eq_request _ (Request.get (("ab").toList)) 3 (by decide)]
    rw [show List.drop 3 [0, 1, 171] = ([] : List Byte) from rfl]
    rw [process_client_data_eq_empty [] (by decide)]

/-- C9 (amended): when a STOP record is decoded, the server consumes
only the STOP byte, enqueues the single success byte 0x00 and initiates
termination; the bytes after the STOP byte are retained in the
accumulator, and the actions of the current processing pass are
independent of them — they are neither decoded nor answered by this
pass (they are decoded only if a further read callback re-enters
processing before the loop stops). -/
theorem C9_stop_retains_rest (rest : List Byte) :
    process_client_data (3 :: rest)
      = ([ServerEvent.enqueueResponse [0], ServerEvent.stopServer], rest) := by
  rw [process_client_data_eq_stop _ (by simp [decode_one])]
  rfl

/-- C10: an attribute pair whose key is none of `bearer-token`, `layout`
or `header` (with both environment variables present) is silently
ignored: the configuration is unchanged and parsing succeeds. -/
theorem C10_unknown_attr_ignored (c : Config) (k v : Str)
    (hb : k ≠ ("bearer-token").toList) (hl : k ≠ ("layout").toList)
    (hh : k ≠ ("header").toList) :
    apply_attr c k v = c ∧ parse_attrs c [(some k, some v)] = some c := by
  have happ : apply_attr c k v = c := by
    unfold apply_attr
    rw [if_neg hb, if_neg hl, if_neg hh]
  exact ⟨happ, by simp [parse_attrs, happ]⟩

/-- Witness for C10 at the unknown attribute key `x-unknown`. -/
theorem C10_unknown_attr_ignored_witness :
    apply_attr (Config.mk [] [] 0 none UrlLayout.SUBDIRS []) (("x-unknown").toList)
        (("v").toList) = Config.mk [] [] 0 none UrlLayout.SUBDIRS []
    ∧ parse_attrs (Config.mk [] [] 0 none UrlLayout.SUBDIRS [])
        [(some (("x-unknown").toList), some (("v").toList))]
      = some (Config.mk [] [] 0 none UrlLayout.SUBDIRS []) :=
  C10_unknown_attr_ignored (Config.mk [] [] 0 none UrlLayout.SUBDIRS [])
    (("x-unknown").toList) (("v").toList) (by decide) (by decide) (by decide)

/-- C8 is false as stated: an origin already ending in two slashes keeps
both of them ("a//" with FLAT layout and key "k" builds "a//k", while a
normalisation to exactly one trailing slash would give "a/k"). -/
theorem C8_counterexample :
    build_url (Config.mk [] (("a//").toList) 0 none UrlLayout.FLAT []) (("k").toList)
      = ("a//k").toList
    ∧ spec_normalize_origin (("a//").toList)
        ++ layout_suffix UrlLayout.FLAT (("k").toList) = ("a/k").toList
    ∧ ("a//k").toList ≠ ("a/k").toList := by
  refine ⟨by decide, by decide, by decide⟩

/-- C8 (amended): the built URL is the origin followed by the
layout-derived suffix, where the origin gets one slash appended exactly
when it is empty or does not already end with a slash; an origin already
ending with a slash — even several — is used unchanged, so the
normalised origin always ends with at least one slash, but a surplus of
trailing slashes may remain. -/
theorem C8_origin_normalisation (cfg : Config) (key : Str) :
    build_url cfg key = normalize_origin cfg.url ++ layout_suffix cfg.layout key
    ∧ (normalize_origin cfg.url).getLast? = some '/'
    ∧ (cfg.url = [] ∨ cfg.url.getLast? ≠ some '/' →
        normalize_origin cfg.url = cfg.url ++ ['/'])
    ∧ (cfg.url.getLast? = some '/' → normalize_origin cfg.url = cfg.url) := by
  refine ⟨rfl, ?_, ?_, ?_⟩
  · unfold normalize_origin
    split
    · simp
    · rename_i hcond
      push_neg at hcond
      exact hcond.2
  · intro h
    unfold normalize_origin
    split
    · rfl
    · rename_i hcond
      push_neg at hcond
      rcases h with h | h
      · exact absurd h hcond.1
      · exact absurd hcond.2 h
  · intro h
    unfold normalize_origin
    split
    · rename_i hcond
      rcases hcond with hc | hc
      · rw [hc] at h
        simp at h
      · exact absurd h hc
    · rfl

/-- Witness for C8 (amended): an origin without a trailing slash gains
one, an origin with a trailing slash is unchanged. -/
theorem C8_origin_normalisation_witness :
    normalize_origin (("a").toList) = ("a").toList ++ ['/']
    ∧ normalize_origin (("b/").toList) = ("b/").toList :=
  ⟨(C8_origin_normalisation (Config.mk [] (("a").toList) 0 none UrlLayout.FLAT []) []).2.2.1
      (Or.inr (by decide)),
   (C8_origin_normalisation (Config.mk [] (("b/").toList) 0 none UrlLayout.FLAT []) []).2.2.2
      (by decide)⟩
